import Mathlib

/- Verification of the test-harness port allocation, port registry and
container orchestration modules. The Python code is shallowly embedded:
state is passed explicitly, Python exceptions are an Except layer, and
operating-system behaviour (socket binds, subprocess results) is an oracle
passed as a parameter. -/

/-- Python exception values that the embedded code can raise or catch. -/
inductive PyErr where
  | runtimeError (msg : String)
  | valueError (msg : String)
  | overflowError (msg : String)
  | osError (msg : String)
  | attributeError (msg : String)
  | indexError (msg : String)
  | otherExc (msg : String)
  deriving DecidableEq

/-- The message text of a Python exception, as produced by str(e). -/
def PyErr.str : PyErr → String
  | .runtimeError m | .valueError m | .overflowError m | .osError m
  | .attributeError m | .indexError m | .otherExc m => m

/-- Characters of a string. -/
def strL (s : String) : List Char := s.toList

/-- Substring containment test, Python sub in s. -/
def containsSub (sub : List Char) : List Char → Bool
  | [] => sub.isEmpty
  | c :: t => sub.isPrefixOf (c :: t) || containsSub sub t

/-- Fuel-driven worker for pySplit; fuel at least the length of the text
means the fuel never runs out. -/
def pySplitF (pat : List Char) : Nat → List Char → List (List Char)
  | 0, l => [l]
  | fuel + 1, l =>
    match pat, l with
    | [], l => [l]
    | _ :: _, [] => [[]]
    | p :: ps, c :: t =>
      if (p :: ps).isPrefixOf (c :: t) then
        [] :: pySplitF pat fuel ((c :: t).drop (p :: ps).length)
      else
        match pySplitF pat fuel t with
        | [] => [[c]]
        | h :: r => (c :: h) :: r

/-- Python str.split(sep) for a nonempty separator, on character lists. -/
def pySplit (pat l : List Char) : List (List Char) := pySplitF pat (l.length + 1) l

/-- Python sep.join(parts). -/
def joinWith (sep : List Char) : List (List Char) → List Char
  | [] => []
  | [x] => x
  | x :: y :: t => x ++ sep ++ joinWith sep (y :: t)

/-- Python str.strip(): drop whitespace from both ends. -/
def trimL (l : List Char) : List Char :=
  ((l.dropWhile Char.isWhitespace).reverse.dropWhile Char.isWhitespace).reverse

/-- Python str.split() with no argument: whitespace-separated tokens. -/
def wsTokens (l : List Char) : List (List Char) :=
  (l.foldr
    (fun c acc =>
      if c.isWhitespace then [] :: acc
      else
        match acc with
        | [] => [[c]]
        | h :: t => (c :: h) :: t)
    []).filter (fun t => !t.isEmpty)

/-- First index at or after i at which sub occurs in the list, if any. -/
def idxOfSubAux (sub : List Char) : List Char → Nat → Option Nat
  | [], i => if sub.isEmpty then some i else none
  | c :: t, i => if sub.isPrefixOf (c :: t) then some i else idxOfSubAux sub t (i + 1)

/-- Python s.find(sub): index of the first occurrence, or -1. -/
def pyFindL (sub l : List Char) : Int :=
  match idxOfSubAux sub l 0 with
  | some n => (n : Int)
  | none => -1

/-- Python s.find(sub, start) for a nonnegative start index. -/
def pyFindFromL (sub l : List Char) (start : Int) : Int :=
  match idxOfSubAux sub (l.drop start.toNat) 0 with
  | some n => (start.toNat : Int) + n
  | none => -1

/-- Python s[a:b] for nonnegative slice bounds. -/
def pySliceL (l : List Char) (a b : Int) : List Char :=
  (l.drop a.toNat).take (b.toNat - a.toNat)

/-- Python s.split(sep, 1): split at the first occurrence only. -/
def splitOnce (sep l : List Char) : List (List Char) :=
  match idxOfSubAux sep l 0 with
  | some i => [l.take i, l.drop (i + sep.length)]
  | none => [l]

/-- Decimal digits of an integer, Python str(n). -/
def numChars (n : Int) : List Char := (toString n).toList

/-- Python s.startswith(pre), on character lists. -/
def startsWithL (pre l : List Char) : Bool := pre.isPrefixOf l

/-- Modelled from CPython behaviour: socket.bind raises OverflowError when the
port is outside 0..65535 (during argument conversion, before any OS call), and
OSError when the OS refuses the bind (port in use, permission denied). The
oracle free says whether the OS would accept binding the port on the host. -/
def sockBind (free : String → Int → Bool) (host : String) (port : Int) : Except PyErr Unit :=
  if port < 0 || port > 65535 then
    .error (.overflowError "bind(): port must be 0-65535.")
  else if free host port then .ok ()
  else .error (.osError "[Errno 98] Address already in use")

/-- Embedding of ports._is_port_available: bind the port inside
try/except (socket.error, OSError); True on a successful bind, False when
the except clause catches the failure. Exceptions that are not OSError
(socket.error is an alias of OSError in Python 3) escape. -/
def isPortAvailable (free : String → Int → Bool) (port : Int) (host : String) : Except PyErr Bool :=
  match sockBind free host port with
  | .ok () => .ok true
  | .error e =>
    match e with
    | .osError _ => .ok false
    | _ => .error e

/-- Inner loop of find_sequential_ports (lines 42-48): probe count sequential
ports starting at cur, collecting them until the first unavailable one.
Returns the collected ports and the all_available flag. -/
def scanPorts (free : String → Int → Bool) (host : String) : Int → Nat → Except PyErr (List Int × Bool)
  | _, 0 => .ok ([], true)
  | cur, n + 1 => do
    let a ← isPortAvailable free cur host
    if a then
      let (ps, b) ← scanPorts free host (cur + 1) n
      .ok (cur :: ps, b)
    else
      .ok ([], false)

/-- Attempt loop of find_sequential_ports (lines 37-58), max_attempts as fuel. -/
def findLoop (free : String → Int → Bool) (host : String) (count : Int) : Nat → Int → Except PyErr (Option (List Int))
  | 0, _ => .ok none
  | fuel + 1, cur => do
    let (ports, allAvailable) ← scanPorts free host cur count.toNat
    if allAvailable && ((ports.length : Int) == count) then
      .ok (some ports)
    else
      let c := cur + 1
      if c + count - 1 > 65535 then .ok none
      else findLoop free host count fuel c

/-- Embedding of ports.find_sequential_ports. -/
def findSequentialPorts (free : String → Int → Bool) (base count : Int) (host : String) : Except PyErr (List Int) :=
  if count < 1 then .error (.valueError "Count must be at least 1")
  else
    match findLoop free host count 1000 base with
    | .ok (some ports) => .ok ports
    | .ok none => .error (.runtimeError ("Unable to find " ++ toString count ++ " sequential available ports starting from " ++ toString base))
    | .error e => .error e

/-- Outcome of one subprocess.run call: a completed process (return code,
stdout, stderr) or one of the exceptions the call can raise. -/
inductive SubpRes where
  | ok (rc : Int) (stdout : String) (stderr : String)
  | timeoutExpired
  | fileNotFound
  | otherRaise
  deriving DecidableEq

/-- Oracle for the system facts _get_process_using_port consults. -/
structure SysWorld where
  platform : String
  lsof : Int → SubpRes
  netstat : SubpRes
  ss : SubpRes
  netstatWin : SubpRes
  tasklist : String → SubpRes

/-- The lsof branch of _get_process_using_port (lines 177-194): some means the
branch returned, none means control fell through to the next tool. -/
def lsofAttempt (res : SubpRes) : Except PyErr (Option String) :=
  match res with
  | .timeoutExpired | .fileNotFound => .ok none
  | .otherRaise => .error (.otherExc "subprocess failure")
  | .ok rc out _ =>
    .ok (if rc == 0 && !(trimL out.toList).isEmpty then
      let lines := pySplit (strL "\n") (trimL out.toList)
      if lines.length > 1 then
        match lines.get? 1 with
        | some processLine =>
          match wsTokens processLine with
          | p0 :: p1 :: _ => some ("process " ++ String.mk p0 ++ " (PID " ++ String.mk p1 ++ ")")
          | _ => none
        | none => none
      else none
    else none)

/-- One line of the netstat fallback loop (lines 205-214). -/
def netstatLine (port : Int) (line : List Char) : Option String :=
  if containsSub (strL ":" ++ numChars port ++ strL " ") line then
    let parts := wsTokens line
    if parts.length ≥ 7 then
      match parts.get? 6 with
      | some info =>
        if info ≠ strL "-" then
          if containsSub (strL "/") info then
            match splitOnce (strL "/") info with
            | [pid, name] => some ("process " ++ String.mk name ++ " (PID " ++ String.mk pid ++ ")")
            | _ => none
          else some ("process " ++ String.mk info)
        else none
      | none => none
    else none
  else none

/-- First some produced by the body over the lines (a for loop that may
return from inside its body). -/
def firstHit (f : List Char → Option String) : List (List Char) → Option String
  | [] => none
  | l :: t =>
    match f l with
    | some s => some s
    | none => firstHit f t

/-- The netstat branch of _get_process_using_port (lines 197-216). -/
def netstatAttempt (port : Int) (res : SubpRes) : Except PyErr (Option String) :=
  match res with
  | .timeoutExpired | .fileNotFound => .ok none
  | .otherRaise => .error (.otherExc "subprocess failure")
  | .ok rc out _ =>
    .ok (if rc == 0 then firstHit (netstatLine port) (pySplit (strL "\n") out.toList) else none)

/-- One line of the ss fallback loop (lines 227-247). -/
def ssLine (port : Int) (line : List Char) : Option String :=
  if containsSub (strL ":" ++ numChars port ++ strL " ") line then
    let parts := wsTokens line
    if parts.length ≥ 7 then
      match parts.get? 6 with
      | some usersPart =>
        if containsSub (strL "users:") usersPart then
          if containsSub (strL "((\"") usersPart && containsSub (strL "\",pid=") usersPart then
            let start := pyFindL (strL "((\"") usersPart + 3
            let stop := pyFindL (strL "\",pid=") usersPart
            if start < stop then
              let processName := pySliceL usersPart start stop
              let pidStart := pyFindL (strL "pid=") usersPart + 4
              let pidEnd0 := pyFindFromL (strL ",") usersPart pidStart
              let pidEnd := if pidEnd0 == -1 then pyFindFromL (strL ")") usersPart pidStart else pidEnd0
              if pidStart < pidEnd then
                some ("process " ++ String.mk processName ++ " (PID " ++ String.mk (pySliceL usersPart pidStart pidEnd) ++ ")")
              else none
            else none
          else none
        else none
      | none => none
    else none
  else none

/-- The ss branch of _get_process_using_port (lines 219-249). -/
def ssAttempt (port : Int) (res : SubpRes) : Except PyErr (Option String) :=
  match res with
  | .timeoutExpired | .fileNotFound => .ok none
  | .otherRaise => .error (.otherExc "subprocess failure")
  | .ok rc out _ =>
    .ok (if rc == 0 then firstHit (ssLine port) (pySplit (strL "\n") out.toList) else none)

/-- The tasklist lookup inside the Windows branch (lines 267-283). -/
def tasklistAttempt (res : SubpRes) (pid : List Char) : Except PyErr (Option String) :=
  match res with
  | .timeoutExpired | .fileNotFound => .ok none
  | .otherRaise => .error (.otherExc "subprocess failure")
  | .ok rc out _ =>
    .ok (if rc == 0 then
      let lines := pySplit (strL "\n") (trimL out.toList)
      if lines.length ≥ 2 then
        match lines.get? 1 with
        | some processLine =>
          if startsWithL (strL "\"") processLine then
            match (pySplit (strL "\"") processLine).get? 1 with
            | some name => some ("process " ++ String.mk name ++ " (PID " ++ String.mk pid ++ ")")
            | none => none
          else none
        | none => none
      else none
    else none)

/-- For loop over lines where the body may itself run subprocesses. -/
def firstHitE (f : List Char → Except PyErr (Option String)) : List (List Char) → Except PyErr (Option String)
  | [] => .ok none
  | l :: t => do
    match ← f l with
    | some s => .ok (some s)
    | none => firstHitE f t

/-- One line of the Windows netstat branch (lines 261-284). -/
def winLine (w : SysWorld) (port : Int) (line : List Char) : Except PyErr (Option String) :=
  if containsSub (strL ":" ++ numChars port ++ strL " ") line && containsSub (strL "LISTENING") line then
    let parts := wsTokens line
    if parts.length ≥ 5 then
      match parts.get? 4 with
      | some pid => do
        match ← tasklistAttempt (w.tasklist (String.mk pid)) pid with
        | some s => .ok (some s)
        | none => .ok (some ("process PID " ++ String.mk pid))
      | none => .ok none
    else .ok none
  else .ok none

/-- The Windows branch of _get_process_using_port (lines 251-286). -/
def winAttempt (w : SysWorld) (port : Int) : Except PyErr (Option String) :=
  match w.netstatWin with
  | .timeoutExpired | .fileNotFound => .ok none
  | .otherRaise => .error (.otherExc "subprocess failure")
  | .ok rc out _ =>
    if rc == 0 then firstHitE (winLine w port) (pySplit (strL "\n") out.toList) else .ok none

/-- The try body of _get_process_using_port before the generic fallback. -/
def platformAttempts (w : SysWorld) (port : Int) : Except PyErr (Option String) :=
  if startsWithL (strL "linux") w.platform.toList || startsWithL (strL "darwin") w.platform.toList then do
    match ← lsofAttempt (w.lsof port) with
    | some s => .ok (some s)
    | none =>
      match ← netstatAttempt port w.netstat with
      | some s => .ok (some s)
      | none => ssAttempt port w.ss
  else if startsWithL (strL "win") w.platform.toList then
    winAttempt w port
  else
    .ok none

/-- Embedding of ports._get_process_using_port. Each Python return yields
some; the generic fallback at line 289 and the except Exception at line 291
both yield "unknown process". -/
def getProcessUsingPort (w : SysWorld) (port : Int) : Option String :=
  match (do
      let r ← platformAttempts w port
      pure (r.getD "unknown process") : Except PyErr String) with
  | .ok s => some s
  | .error _ => some "unknown process"

/-- Embedding of ports.PortInfo. -/
structure PortInfo where
  port : Int
  available : Bool
  process_info : Option String
  deriving DecidableEq

/-- Embedding of ports.PortBlockCheckResult. -/
structure PortBlockCheckResult where
  available : Bool
  requested_range : Int × Int
  busy_ports : List PortInfo
  error_message : Option String
  deriving DecidableEq

/-- Python truthiness of an Optional[str]: None and the empty string are
falsy, every other string is truthy. -/
def pyTruthy : Option String → Bool
  | none => false
  | some s => !s.toList.isEmpty

/-- The probing loop of check_sequential_port_block (lines 117-125): returns
the busy-port records together with the list of ports probed. -/
def scanBusy (free : String → Int → Bool) (w : SysWorld) (host : String) : Int → Nat → Except PyErr (List PortInfo × List Int)
  | _, 0 => .ok ([], [])
  | port, n + 1 => do
    let a ← isPortAvailable free port host
    let (rest, probed) ← scanBusy free w host (port + 1) n
    if a then .ok (rest, port :: probed)
    else .ok (⟨port, false, getProcessUsingPort w port⟩ :: rest, port :: probed)

/-- The per-port description built at lines 131-136. -/
def descChars (p : Int) (info : Option String) : List Char :=
  if pyTruthy info then
    numChars p ++ strL " already in use (" ++ (info.getD "").toList ++ strL ")"
  else
    numChars p ++ strL " already in use"

/-- Lines 145-151: re-split each description on " already in use" and, when
that gives exactly two parts, rebuild it; otherwise keep it unchanged. -/
def rebuildDesc (s : List Char) : List Char :=
  match pySplit (strL " already in use") s with
  | [a, b] => a ++ strL " already in use" ++ b
  | _ => s

/-- Lines 130-153: assemble the error message from the busy-port records. -/
def buildErrorMessage (base endPort count : Int) (busy : List PortInfo) : Except PyErr String :=
  let strs := busy.map (fun bp => descChars bp.port bp.process_info)
  if count == 1 then
    match strs.get? 0 with
    | none => .error (.indexError "list index out of range")
    | some d0 =>
      match (pySplit (numChars base ++ strL " ") d0).get? 1 with
      | none => .error (.indexError "list index out of range")
      | some t => .ok (String.mk (strL "Port " ++ numChars base ++ strL ": " ++ t))
  else
    .ok (String.mk (strL "Ports " ++ numChars base ++ strL "-" ++ numChars endPort ++ strL ": " ++
      joinWith (strL ", ") (strs.map rebuildDesc)))

/-- Embedding of ports.check_sequential_port_block, instrumented with the
list of ports it probes. -/
def checkSequentialPortBlock (free : String → Int → Bool) (w : SysWorld) (base count : Int) (host : String) : Except PyErr (PortBlockCheckResult × List Int) :=
  if count < 1 then
    .ok (⟨false, (base, base + count - 1), [], some "Count must be at least 1"⟩, [])
  else
    let endPort := base + count - 1
    if endPort > 65535 then
      .ok (⟨false, (base, endPort), [],
        some (String.mk (strL "Port range " ++ numChars base ++ strL "-" ++ numChars endPort ++ strL " exceeds maximum port number 65535"))⟩, [])
    else do
      let (busy, probed) ← scanBusy free w host base count.toNat
      let available := busy.length == 0
      if available then
        .ok (⟨true, (base, endPort), busy, none⟩, probed)
      else do
        let msg ← buildErrorMessage base endPort count busy
        .ok (⟨false, (base, endPort), busy, some msg⟩, probed)

universe u v

instance {ε : Type u} {α : Type v} [DecidableEq ε] [DecidableEq α] : DecidableEq (Except ε α) := fun x y =>
  match x, y with
  | .ok a, .ok b =>
    if h : a = b then .isTrue (by rw [h]) else .isFalse (fun he => by cases he; exact h rfl)
  | .error a, .error b =>
    if h : a = b then .isTrue (by rw [h]) else .isFalse (fun he => by cases he; exact h rfl)
  | .ok _, .error _ => .isFalse (fun he => by cases he)
  | .error _, .ok _ => .isFalse (fun he => by cases he)

/-- One value of the assigned_ports dict of PortManager: port, purpose and
assignment timestamp. -/
structure PMEntry where
  port : Int
  purpose : String
  assigned_at : String
  deriving DecidableEq

/-- The in-memory state of a PortManager. -/
structure PMState where
  base_port : Int
  current_port : Int
  assigned_ports : List (String × PMEntry)
  deriving DecidableEq

/-- Parsed contents of config/port_assignments.json: the assignments dict
and the next_port value when that key is present. -/
structure PMFileData where
  assignments : List (String × PMEntry)
  next_port : Option Int
  deriving DecidableEq

/-- Python dict lookup (keys are unique in a dict; the embedding takes the
first matching entry). -/
def lookupA (m : List (String × PMEntry)) (k : String) : Option PMEntry :=
  (m.find? (fun kv => kv.1 == k)).map (fun kv => kv.2)

/-- Embedding of PortManager.__init__ with _load_assignments: a missing or
unparsable file gives the defaults; otherwise the assignments dict is taken
from the file and the cursor is read with default base_port, then clamped up
to base_port when below it. -/
def loadAssignments (base : Int) (file : Option PMFileData) : PMState :=
  match file with
  | none => ⟨base, base, []⟩
  | some d =>
    let cur := d.next_port.getD base
    ⟨base, if cur < base then base else cur, d.assignments⟩

/-- Embedding of PortManager._save_assignments: the file contents written. -/
def saveData (s : PMState) : PMFileData :=
  ⟨s.assigned_ports, some s.current_port⟩

/-- Embedding of PortManager.assign_port. Returns the assigned port, the new
state and the list of file writes performed. -/
def assignPort (s : PMState) (service_name purpose ts : String) : Int × PMState × List PMFileData :=
  match lookupA s.assigned_ports service_name with
  | some e => (e.port, s, [])
  | none =>
    let p := s.current_port
    let s' : PMState :=
      ⟨s.base_port, s.current_port + 1,
        s.assigned_ports ++ [(service_name, ⟨p, purpose, ts⟩)]⟩
    (p, s', [saveData s'])

/-- Embedding of PortManager.release_port. -/
def releasePort (s : PMState) (service_name : String) : Bool × PMState × List PMFileData :=
  if (lookupA s.assigned_ports service_name).isSome then
    let s' : PMState :=
      ⟨s.base_port, s.current_port,
        s.assigned_ports.filter (fun kv => !(kv.1 == service_name))⟩
    (true, s', [saveData s'])
  else (false, s, [])

/-- Embedding of PortManager.reset_assignments. -/
def resetAssignments (s : PMState) : PMState × List PMFileData :=
  let s' : PMState := ⟨s.base_port, s.base_port, []⟩
  (s', [saveData s'])

/-- Registry states reachable by constructing a PortManager on any base and
persisted file and then performing any sequence of operations. -/
inductive PMReach : PMState → Prop where
  | load (base : Int) (file : Option PMFileData) : PMReach (loadAssignments base file)
  | assign (s : PMState) (n p t : String) : PMReach s → PMReach (assignPort s n p t).2.1
  | release (s : PMState) (n : String) : PMReach s → PMReach (releasePort s n).2.1
  | reset (s : PMState) : PMReach s → PMReach (resetAssignments s).1

/-- Registry states reachable from a given starting state by assign, release
and reset operations. -/
inductive PMReachFrom (s0 : PMState) : PMState → Prop where
  | refl : PMReachFrom s0 s0
  | assign (s : PMState) (n p t : String) : PMReachFrom s0 s → PMReachFrom s0 (assignPort s n p t).2.1
  | release (s : PMState) (n : String) : PMReachFrom s0 s → PMReachFrom s0 (releasePort s n).2.1
  | reset (s : PMState) : PMReachFrom s0 s → PMReachFrom s0 (resetAssignments s).1

/-- The registry invariant claimed by the spec: the cursor is at least
base_port, strictly above every assigned port, and every assigned port is at
least base_port. -/
def PMInv (s : PMState) : Prop :=
  s.base_port ≤ s.current_port ∧
  ∀ kv ∈ s.assigned_ports, kv.2.port + 1 ≤ s.current_port ∧ s.base_port ≤ kv.2.port

/-- A persisted file whose parsed contents already respect the invariant
relative to base: every recorded port at least base and strictly below the
recorded cursor. Any file saved by a session with the same base_port is
good. -/
def GoodFile (base : Int) : Option PMFileData → Prop
  | none => True
  | some d => ∀ kv ∈ d.assignments, base ≤ kv.2.port ∧ kv.2.port + 1 ≤ d.next_port.getD base

/-- Embedding of ContainerRuntime. -/
structure Runtime where
  name : String
  command : String
  compose_command : String
  available : Bool
  version : String
  deriving DecidableEq

/-- Mutable fields of a ContainerOrchestrator. -/
structure OrchState where
  runtime : Option Runtime
  containers : List String
  compose_file : String
  project_name : String
  ports : List (String × Int)
  deriving DecidableEq

/-- A fresh ContainerOrchestrator (__init__). -/
def orchInit : OrchState := ⟨none, [], "docker-compose.test.yml", "test-env", []⟩

/-- Externally visible commands the orchestrator issues against the
container runtime or the filesystem. -/
inductive OrchAction where
  | stop (container : String)
  | rm (container : String)
  | podRm (pod : String)
  | podCreate (pod : String)
  | runContainer (container : String)
  | composeUp
  | composeDown
  | writeComposeFile (file : String)
  deriving DecidableEq

/-- Oracle for everything the orchestrator observes from the system. -/
structure OrchWorld where
  free : String → Int → Bool
  sys : SysWorld
  versionCmd : String → SubpRes
  ps : SubpRes
  pgExec : SubpRes
  mongoExec : SubpRes
  podCreateRes : SubpRes
  runPgRes : SubpRes
  runMongoRes : SubpRes
  composeUpRes : SubpRes
  stopCmd : String → SubpRes
  rmCmd : String → SubpRes
  podRmRes : SubpRes
  composeDownRes : SubpRes

/-- Embedding of _check_command_available: True when the probe completes
(whatever its return code); TimeoutExpired and FileNotFoundError give False;
any other exception escapes. -/
def checkCommandAvailable (w : OrchWorld) (command : String) : Except PyErr Bool :=
  match w.versionCmd command with
  | .ok _ _ _ => .ok true
  | .timeoutExpired | .fileNotFound => .ok false
  | .otherRaise => .error (.otherExc "subprocess failure")

/-- Embedding of _check_runtime_available: probes runtime --version and, on
success, fills in available/version and applies the compose-command
fallbacks for podman and docker. -/
def checkRuntimeAvailable (w : OrchWorld) (rt : Runtime) : Except PyErr (Option Runtime) :=
  match w.versionCmd rt.command with
  | .timeoutExpired | .fileNotFound => .ok none
  | .otherRaise => .error (.otherExc "subprocess failure")
  | .ok rc out _ =>
    if rc == 0 then
      let rt1 : Runtime := ⟨rt.name, rt.command, rt.compose_command, true, String.mk (trimL out.toList)⟩
      if rt1.name == "podman" then do
        let a ← checkCommandAvailable w "podman-compose"
        if a then .ok (some rt1)
        else
          let b ← checkCommandAvailable w "docker-compose"
          if b then .ok (some rt1)
          else .ok (some ⟨rt1.name, rt1.command, "podman", true, rt1.version⟩)
      else if rt1.name == "docker" then do
        let a ← checkCommandAvailable w "docker-compose"
        if a then .ok (some rt1)
        else .ok (some ⟨rt1.name, rt1.command, "docker compose", true, rt1.version⟩)
      else .ok (some rt1)
    else .ok none

/-- The candidate runtimes probed by detect_runtime, in order. -/
def runtimeCandidates : List Runtime :=
  [⟨"podman", "podman", "podman-compose", false, ""⟩,
   ⟨"docker", "docker", "docker-compose", false, ""⟩,
   ⟨"nerdctl", "nerdctl", "nerdctl compose", false, ""⟩,
   ⟨"buildah", "buildah", "buildah-compose", false, ""⟩]

/-- Worker for detect_runtime over the candidate list. -/
def detectRuntimeAux (w : OrchWorld) : List Runtime → Except PyErr (Option Runtime)
  | [] => .ok none
  | rt :: t => do
    match ← checkRuntimeAvailable w rt with
    | some rt' => .ok (some rt')
    | none => detectRuntimeAux w t

/-- Embedding of detect_runtime: the first available runtime is stored on
the orchestrator and returned; RuntimeError when none is available. -/
def detectRuntime (w : OrchWorld) (s : OrchState) : Except PyErr (Runtime × OrchState) := do
  match ← detectRuntimeAux w runtimeCandidates with
  | some rt => .ok (rt, ⟨some rt, s.containers, s.compose_file, s.project_name, s.ports⟩)
  | none => .error (.runtimeError "No compatible container runtime found. Please install Docker, Podman, or another OCI-compatible runtime.")

/-- Embedding of _check_postgres_health: a bare except maps any failure to
False; accessing self.runtime.command when runtime is None also lands in
the except. -/
def checkPostgresHealth (w : OrchWorld) (s : OrchState) : Bool :=
  match s.runtime with
  | none => false
  | some _ =>
    match w.pgExec with
    | .ok rc _ _ => rc == 0
    | _ => false

/-- Embedding of _check_mongo_health. -/
def checkMongoHealth (w : OrchWorld) (s : OrchState) : Bool :=
  match s.runtime with
  | none => false
  | some _ =>
    match w.mongoExec with
    | .ok rc _ _ => rc == 0
    | _ => false

/-- Embedding of _check_containers_exist: the runtime ps listing must show
both required containers and both health checks must pass; any exception
gives False. -/
def checkContainersExist (w : OrchWorld) (s : OrchState) : Bool :=
  match s.runtime with
  | none => false
  | some _ =>
    match w.ps with
    | .ok rc out _ =>
      if rc != 0 then false
      else
        let running := (pySplit (strL "\n") (trimL out.toList)).map String.mk
        if !(running.contains "test-postgres") then false
        else if !(running.contains "test-mongo") then false
        else checkPostgresHealth w s && checkMongoHealth w s
    | _ => false

/-- Whether a subprocess outcome raises an exception. -/
def SubpRes.raised : SubpRes → Bool
  | .ok _ _ _ => false
  | _ => true

/-- Issue a sequence of commands, stopping after the first that raises. -/
def runSteps : List (OrchAction × SubpRes) → List OrchAction
  | [] => []
  | (a, r) :: t => if r.raised then [a] else a :: runSteps t

/-- Embedding of _cleanup_existing_containers: stop/rm the two test
containers and remove the pod; the internal try/except swallows any
exception, so the function always returns, with the commands attempted. -/
def cleanupExisting (w : OrchWorld) (s : OrchState) : List OrchAction :=
  runSteps
    [(OrchAction.stop "test-postgres", w.stopCmd "test-postgres"),
     (OrchAction.rm "test-postgres", w.rmCmd "test-postgres"),
     (OrchAction.stop "test-mongo", w.stopCmd "test-mongo"),
     (OrchAction.rm "test-mongo", w.rmCmd "test-mongo"),
     (OrchAction.podRm s.project_name, w.podRmRes)]

/-- Dict access self.ports[k]; None stands for a KeyError. -/
def lookupPort (m : List (String × Int)) (k : String) : Option Int :=
  (m.find? (fun kv => kv.1 == k)).map (fun kv => kv.2)

/-- Embedding of _start_podman_containers. Returns the success flag, the new
state and the commands issued; the surrounding try/except turns any
exception into a False return. -/
def startPodmanContainers (w : OrchWorld) (s : OrchState) : Bool × OrchState × List OrchAction :=
  if checkContainersExist w s then (true, s, [])
  else
    let acts0 := cleanupExisting w s
    match lookupPort s.ports "postgres", lookupPort s.ports "mongo" with
    | some _, some _ =>
      let acts1 := acts0 ++ [OrchAction.podCreate s.project_name]
      match w.podCreateRes with
      | .ok rc _ err =>
        if rc != 0 && !containsSub (strL "already exists") err.toList then (false, s, acts1)
        else
          let acts2 := acts1 ++ [OrchAction.runContainer "test-postgres"]
          match w.runPgRes with
          | .ok rc2 _ _ =>
            if rc2 != 0 then (false, s, acts2)
            else
              let s1 : OrchState := ⟨s.runtime, s.containers ++ ["test-postgres"], s.compose_file, s.project_name, s.ports⟩
              let acts3 := acts2 ++ [OrchAction.runContainer "test-mongo"]
              match w.runMongoRes with
              | .ok rc3 _ _ =>
                if rc3 != 0 then (false, s1, acts3)
                else
                  let s2 : OrchState := ⟨s1.runtime, s1.containers ++ ["test-mongo"], s1.compose_file, s1.project_name, s1.ports⟩
                  (true, s2, acts3)
              | _ => (false, s1, acts3)
          | _ => (false, s, acts2)
      | _ => (false, s, acts1)
    | _, _ => (false, s, acts0)

/-- Embedding of _start_compose_containers (its try/except turns any
exception into a False return). -/
def startComposeContainers (w : OrchWorld) (rt : Runtime) (s : OrchState) : Bool × OrchState × List OrchAction :=
  let p : OrchState × List OrchAction :=
    if rt.name == "podman" then
      (⟨s.runtime, s.containers, "podman-compose.test.yml", s.project_name, s.ports⟩,
        [OrchAction.writeComposeFile "podman-compose.test.yml"])
    else (s, [])
  let acts1 := p.2 ++ [OrchAction.composeUp]
  match w.composeUpRes with
  | .ok rc _ _ => (rc == 0, p.1, acts1)
  | _ => (false, p.1, acts1)

/-- The services given ports by _allocate_ports, in order. -/
def portServices : List String := ["app", "postgres", "mongo"]

/-- Embedding of _allocate_ports. On success the returned state carries the
port map; on failure the RuntimeError described in the source escapes. -/
def allocatePorts (w : OrchWorld) (s : OrchState) : Except PyErr OrchState :=
  let inner : Except PyErr OrchState :=
    match checkSequentialPortBlock w.free w.sys 8090 3 "0.0.0.0" with
    | .ok (res, _) =>
      if res.available then
        .ok ⟨s.runtime, s.containers, s.compose_file, s.project_name,
          portServices.zip [8090, 8091, 8092]⟩
      else
        .error (.runtimeError (res.error_message.getD "None"))
    | .error e => .error e
  match inner with
  | .ok s' => .ok s'
  | .error e =>
    if containsSub (strL "already in use") (PyErr.str e).toList then
      .error (.runtimeError ("Unable to allocate sequential ports: " ++ PyErr.str e))
    else
      match findSequentialPorts w.free 8090 3 "0.0.0.0" with
      | .ok ports => .ok ⟨s.runtime, s.containers, s.compose_file, s.project_name, portServices.zip ports⟩
      | .error fe => .error (.runtimeError ("Unable to allocate sequential ports: " ++ PyErr.str fe))

/-- Embedding of start_containers: detect a runtime when none is stored
(exceptions from detection escape), then inside try/except allocate ports
and dispatch on the runtime name; any exception in the try gives False. -/
def startContainers (w : OrchWorld) (s : OrchState) : Except PyErr (Bool × OrchState × List OrchAction) := do
  let (rt, s1) ←
    match s.runtime with
    | none => detectRuntime w s
    | some rt => Except.ok (rt, s)
  match allocatePorts w s1 with
  | .error _ => .ok (false, s1, [])
  | .ok s2 =>
    if rt.name == "podman" then .ok (startPodmanContainers w s2)
    else .ok (startComposeContainers w rt s2)

/-- The stop/rm loop of cleanup, with the commands attempted so far attached
to any escaping exception. -/
def cleanupStopRm (w : OrchWorld) : List String → List OrchAction → Except (PyErr × List OrchAction) (List OrchAction)
  | [], acc => .ok acc
  | c :: t, acc =>
    let acc1 := acc ++ [OrchAction.stop c]
    if (w.stopCmd c).raised then .error (.otherExc "subprocess failure", acc1)
    else
      let acc2 := acc1 ++ [OrchAction.rm c]
      if (w.rmCmd c).raised then .error (.otherExc "subprocess failure", acc2)
      else cleanupStopRm w t acc2

/-- The try body of cleanup (lines 462-481): accessing self.runtime.name
raises AttributeError when no runtime was detected; under podman each
started container is stopped and removed and the pod removed; otherwise
compose down runs. -/
def cleanupTry (w : OrchWorld) (s : OrchState) : Except (PyErr × List OrchAction) (List OrchAction) :=
  match s.runtime with
  | none => .error (.attributeError "NoneType object has no attribute name", [])
  | some rt =>
    if rt.name == "podman" then do
      let acc ← cleanupStopRm w s.containers []
      let acc1 := acc ++ [OrchAction.podRm s.project_name]
      if w.podRmRes.raised then .error (.otherExc "subprocess failure", acc1)
      else .ok acc1
    else
      let acc1 := [OrchAction.composeDown]
      if w.composeDownRes.raised then .error (.otherExc "subprocess failure", acc1)
      else .ok acc1

/-- Embedding of cleanup: the try body wrapped in except Exception, which
prints a warning and lets the method complete normally. -/
def cleanup (w : OrchWorld) (s : OrchState) : Except PyErr (List OrchAction) :=
  match cleanupTry w s with
  | .ok acts => .ok acts
  | .error (_, acts) => .ok acts

/-- A system oracle on Linux where every process-listing tool is missing, so
process attribution falls back to "unknown process". -/
def sysAllFail : SysWorld :=
  ⟨"linux", fun _ => .fileNotFound, .fileNotFound, .fileNotFound, .fileNotFound,
    fun _ => .fileNotFound⟩

/-- Port oracle with exactly port 8091 busy (as when test-postgres already
publishes it). -/
def busy8091 : String → Int → Bool := fun _ p => p != 8091

/-- Port oracle with exactly port 8090 busy. -/
def busy8090 : String → Int → Bool := fun _ p => p != 8090

/-- Port oracle with every port free. -/
def allFree : String → Int → Bool := fun _ _ => true

/-- The podman candidate record of detect_runtime. -/
def podmanRt : Runtime := ⟨"podman", "podman", "podman-compose", false, ""⟩

/-- An orchestrator world in which both required containers are listed by ps
and both health checks pass. -/
def healthyWorld (free : String → Int → Bool) : OrchWorld :=
  ⟨free, sysAllFail, fun _ => .ok 0 "podman version 4.0" "",
    .ok 0 "test-postgres\ntest-mongo" "", .ok 0 "" "", .ok 0 "" "",
    .ok 0 "" "", .ok 0 "" "", .ok 0 "" "", .ok 0 "" "",
    fun _ => .ok 0 "" "", fun _ => .ok 0 "" "", .ok 0 "" "", .ok 0 "" ""⟩

/-- Orchestrator state after runtime detection chose podman. -/
def podmanState : OrchState := ⟨some podmanRt, [], "docker-compose.test.yml", "test-env", []⟩

/-- A stale persisted registry file written by a session whose base_port was
4000: one assignment at port 4000 and cursor 4001. -/
def staleFile : PMFileData := ⟨[("svc", ⟨4000, "db", "t0"⟩)], some 4001⟩

/-- The registry state obtained by loading staleFile after the base port was
raised to 5000. -/
def staleLoaded : PMState := loadAssignments 5000 (some staleFile)

/-- A small concrete registry state used by witnesses. -/
def pmDemo : PMState := ⟨4000, 4001, [("api", ⟨4000, "http", "t1"⟩)]⟩

/-- The text after "<port> " in a busy-port description: "already in use"
followed by the parenthesised process description when it is truthy. -/
def useTail (info : Option String) : List Char :=
  strL "already in use" ++ (if pyTruthy info then strL " (" ++ (info.getD "").toList ++ strL ")" else [])

/-- The ports window starting at start of length n, as probed by the code:
every port in it is accepted by _is_port_available (in range and free). -/
def windowFreeB (free : String → Int → Bool) (host : String) : Int → Nat → Bool
  | _, 0 => true
  | start, n + 1 =>
    (decide (0 ≤ start) && decide (start ≤ 65535) && free host start) &&
      windowFreeB free host (start + 1) n

/-- The list start, start+1, ..., start+n-1. -/
def seqInts : Int → Nat → List Int
  | _, 0 => []
  | start, n + 1 => start :: seqInts (start + 1) n

/-- Whether the three ports requested by _allocate_ports are all free. -/
def allFree3 (w : OrchWorld) : Bool :=
  w.free "0.0.0.0" 8090 && w.free "0.0.0.0" 8091 && w.free "0.0.0.0" 8092

/-- Whether an embedded computation completed without a Python exception. -/
def exceptOk {α : Type u} : Except PyErr α → Bool
  | .ok _ => true
  | .error _ => false

/-- A partially populated session: startup failed after creating only the
postgres container. -/
def partialSession : OrchState :=
  ⟨some podmanRt, ["test-postgres"], "docker-compose.test.yml", "test-env",
    [("app", 8090), ("postgres", 8091), ("mongo", 8092)]⟩

theorem containsSub_cons (sub : List Char) (c : Char) (t : List Char)
    (h : containsSub sub t = true) : containsSub sub (c :: t) = true := by
  simp only [containsSub, h, Bool.or_true]

theorem containsSub_self_append (sub suf : List Char) : containsSub sub (sub ++ suf) = true := by
  cases sub with
  | nil => cases suf <;> simp [containsSub]
  | cons s st =>
    simp only [List.cons_append, containsSub, Bool.or_eq_true]
    left
    rw [List.isPrefixOf_iff_prefix]
    exact List.prefix_append _ _

theorem containsSub_infix (sub pre suf : List Char) :
    containsSub sub (pre ++ sub ++ suf) = true := by
  induction pre with
  | nil => simpa using containsSub_self_append sub suf
  | cons c t ih =>
    simp only [List.cons_append, List.append_assoc] at ih ⊢
    exact containsSub_cons _ _ _ ih

theorem joinWith_mem (sep x : List Char) :
    ∀ l : List (List Char), x ∈ l → ∃ a b, joinWith sep l = a ++ x ++ b := by
  intro l
  induction l with
  | nil => intro h; cases h
  | cons y r ih =>
    intro hmem
    cases r with
    | nil =>
      have hx : x = y := by cases hmem with
        | head => rfl
        | tail _ h => cases h
      exact ⟨[], [], by simp [joinWith, hx]⟩
    | cons z t =>
      rcases List.mem_cons.mp hmem with h | h
      · exact ⟨[], sep ++ joinWith sep (z :: t), by simp [joinWith, h, List.append_assoc]⟩
      · rcases ih h with ⟨a, b, hab⟩
        exact ⟨y ++ sep ++ a, b, by simp [joinWith, hab, List.append_assoc]⟩

theorem pySplitF_ne_nil (pat : List Char) :
    ∀ (fuel : Nat) (l : List Char), pySplitF pat fuel l ≠ [] := by
  intro fuel
  induction fuel with
  | zero => intro l; simp [pySplitF]
  | succ g ih =>
    intro l
    cases pat with
    | nil => simp [pySplitF]
    | cons p ps =>
      cases l with
      | nil => simp [pySplitF]
      | cons c t =>
        simp only [pySplitF]
        by_cases hp : (p :: ps).isPrefixOf (c :: t)
        · simp [hp]
        · simp only [hp, Bool.false_eq_true, if_false]
          cases hres : pySplitF (p :: ps) g t with
          | nil => exact absurd hres (ih t)
          | cons h r => simp

theorem pySplitF_fuel (pat : List Char) :
    ∀ (f1 : Nat) (l : List Char) (f2 : Nat), l.length < f1 → l.length < f2 →
      pySplitF pat f1 l = pySplitF pat f2 l := by
  intro f1
  induction f1 with
  | zero => intro l f2 h1 _; omega
  | succ g ih =>
    intro l f2 h1 h2
    cases f2 with
    | zero => omega
    | succ h =>
      cases pat with
      | nil => simp [pySplitF]
      | cons p ps =>
        cases l with
        | nil => simp [pySplitF]
        | cons c t =>
          simp only [pySplitF]
          by_cases hp : (p :: ps).isPrefixOf (c :: t)
          · simp only [hp, if_true]
            have hd : ((c :: t).drop (p :: ps).length).length < g := by
              simp only [List.length_drop, List.length_cons] at *
              omega
            have hd2 : ((c :: t).drop (p :: ps).length).length < h := by
              simp only [List.length_drop, List.length_cons] at *
              omega
            rw [ih _ h hd hd2]
          · simp only [hp, Bool.false_eq_true, if_false]
            have ht : t.length < g := by simp only [List.length_cons] at h1; omega
            have ht2 : t.length < h := by simp only [List.length_cons] at h2; omega
            rw [ih t h ht ht2]

theorem pySplitF_not_contains (pat : List Char) :
    ∀ (fuel : Nat) (l : List Char), l.length < fuel → containsSub pat l = false →
      pySplitF pat fuel l = [l] := by
  intro fuel
  induction fuel with
  | zero => intro l h; omega
  | succ g ih =>
    intro l hlen hcon
    cases pat with
    | nil =>
      exfalso
      cases l <;> simp [containsSub] at hcon
    | cons p ps =>
      cases l with
      | nil => simp [pySplitF]
      | cons c t =>
        simp only [containsSub, Bool.or_eq_false_iff] at hcon
        simp only [pySplitF, hcon.1, Bool.false_eq_true, if_false]
        rw [ih t (by simp only [List.length_cons] at hlen; omega) hcon.2]

theorem pySplit_not_contains (pat l : List Char) (h : containsSub pat l = false) :
    pySplit pat l = [l] :=
  pySplitF_not_contains pat (l.length + 1) l (by omega) h

theorem pySplitF_cons_self (p : Char) (ps tail : List Char) (g : Nat) :
    pySplitF (p :: ps) (g + 1) (p :: ps ++ tail) = [] :: pySplitF (p :: ps) g tail := by
  have hp : (p :: ps).isPrefixOf ((p :: ps) ++ tail) := by
    rw [List.isPrefixOf_iff_prefix]
    exact List.prefix_append _ _
  have hdrop : ((p :: ps) ++ tail).drop (p :: ps).length = tail := List.drop_left _ _
  simp only [List.cons_append] at hp hdrop ⊢
  simp only [pySplitF, hp, if_true, hdrop]

theorem pySplit_cons_self (pat tail : List Char) (hne : pat ≠ []) :
    pySplit pat (pat ++ tail) = [] :: pySplit pat tail := by
  cases pat with
  | nil => exact absurd rfl hne
  | cons p ps =>
    unfold pySplit
    have hlen : (p :: ps ++ tail).length + 1 = ((ps ++ tail).length + 1) + 1 := by simp
    rw [hlen, pySplitF_cons_self]
    refine congrArg _ (pySplitF_fuel _ _ _ _ ?_ ?_)
    · simp [List.length_append]
      omega
    · omega

theorem joinWith_pySplitF (pat : List Char) :
    ∀ (fuel : Nat) (l : List Char), l.length < fuel →
      joinWith pat (pySplitF pat fuel l) = l := by
  intro fuel
  induction fuel with
  | zero => intro l h; omega
  | succ g ih =>
    intro l hlen
    cases pat with
    | nil => simp [pySplitF, joinWith]
    | cons p ps =>
      cases l with
      | nil => simp [pySplitF, joinWith]
      | cons c t =>
        simp only [pySplitF]
        by_cases hp : (p :: ps).isPrefixOf (c :: t)
        · simp only [hp, if_true]
          have hd : ((c :: t).drop (p :: ps).length).length < g := by
            simp only [List.length_drop, List.length_cons] at *
            omega
          have hih := ih ((c :: t).drop (p :: ps).length) hd
          cases hres : pySplitF (p :: ps) g ((c :: t).drop (p :: ps).length) with
          | nil => exact absurd hres (pySplitF_ne_nil _ _ _)
          | cons r0 r' =>
            rw [hres] at hih
            simp only [joinWith, List.nil_append]
            rw [hih]
            have hpre : (p :: ps) <+: (c :: t) := List.isPrefixOf_iff_prefix.mp hp
            have htake : (p :: ps) = (c :: t).take (p :: ps).length :=
              List.prefix_iff_eq_take.mp hpre
            conv_rhs => rw [← List.take_append_drop (p :: ps).length (c :: t)]
            rw [← htake]
        · simp only [hp, Bool.false_eq_true, if_false]
          have ht : t.length < g := by simp only [List.length_cons] at hlen; omega
          have hih := ih t ht
          cases hres : pySplitF (p :: ps) g t with
          | nil => exact absurd hres (pySplitF_ne_nil _ _ _)
          | cons h0 r =>
            rw [hres] at hih
            cases r with
            | nil =>
              simp only [joinWith] at hih ⊢
              rw [hih]
            | cons r1 r' =>
              simp only [joinWith] at hih ⊢
              rw [List.cons_append, List.cons_append, hih]

theorem joinWith_pySplit (pat l : List Char) : joinWith pat (pySplit pat l) = l :=
  joinWith_pySplitF pat (l.length + 1) l (by omega)

theorem rebuildDesc_id (s : List Char) : rebuildDesc s = s := by
  unfold rebuildDesc
  cases hl : pySplit (strL " already in use") s with
  | nil => rfl
  | cons a r =>
    cases r with
    | nil => rfl
    | cons b r2 =>
      cases r2 with
      | cons c r3 => rfl
      | nil =>
        have hj := joinWith_pySplit (strL " already in use") s
        rw [hl] at hj
        simp only [joinWith] at hj
        exact hj

theorem descChars_eq (p : Int) (info : Option String) :
    descChars p info = numChars p ++ [' '] ++ useTail info := by
  unfold descChars useTail
  cases h : pyTruthy info
  · simp only [h, Bool.false_eq_true, if_false]
    have hs : strL " already in use" = [' '] ++ strL "already in use" := rfl
    rw [hs]
    simp [List.append_assoc]
  · simp only [h, if_true]
    have hs : strL " already in use (" = [' '] ++ strL "already in use" ++ strL " (" := rfl
    rw [hs]
    simp [List.append_assoc]

theorem lookupA_cons (kv : String × PMEntry) (t : List (String × PMEntry)) (n : String) :
    lookupA (kv :: t) n = if kv.1 == n then some kv.2 else lookupA t n := by
  simp only [lookupA, List.find?_cons]
  cases h : (kv.1 == n) <;> simp [h]

theorem lookupA_append_self (l : List (String × PMEntry)) (n : String) (e : PMEntry)
    (h : lookupA l n = none) : lookupA (l ++ [(n, e)]) n = some e := by
  induction l with
  | nil => simp [lookupA]
  | cons kv t ih =>
    rw [lookupA_cons] at h
    rw [List.cons_append, lookupA_cons]
    cases hbeq : (kv.1 == n)
    · rw [hbeq] at h
      simp only [Bool.false_eq_true, if_false] at h ⊢
      exact ih h
    · rw [hbeq] at h
      simp at h

theorem lookupA_filter_self (l : List (String × PMEntry)) (n : String) :
    lookupA (l.filter (fun kv => !(kv.1 == n))) n = none := by
  induction l with
  | nil => simp [lookupA]
  | cons kv t ih =>
    rw [List.filter_cons]
    cases hbeq : (kv.1 == n)
    · simp only [hbeq, Bool.not_false, if_true]
      rw [lookupA_cons, hbeq]
      simpa using ih
    · simp only [hbeq, Bool.not_true, Bool.false_eq_true, if_false]
      exact ih

theorem lookupA_filter_other (l : List (String × PMEntry)) (n k : String) (hk : k ≠ n) :
    lookupA (l.filter (fun kv => !(kv.1 == n))) k = lookupA l k := by
  induction l with
  | nil => simp
  | cons kv t ih =>
    rw [List.filter_cons]
    cases hbeq : (kv.1 == n)
    · simp only [hbeq, Bool.not_false, if_true]
      rw [lookupA_cons, lookupA_cons, ih]
    · have hkv : kv.1 = n := by simpa using hbeq
      have hkk : (kv.1 == k) = false := by
        simp [hkv]
        exact fun he => hk he.symm
      simp only [hbeq, Bool.not_true, Bool.false_eq_true, if_false]
      rw [lookupA_cons, hkk, ih]
      simp

/-- C4: assigning a port twice for the same service returns the identical
port both times; the second call leaves the registry state unchanged and
performs no file write. -/
theorem assign_port_idempotent : ∀ (s : PMState) (n p1 t1 p2 t2 : String),
    (assignPort (assignPort s n p1 t1).2.1 n p2 t2).1 = (assignPort s n p1 t1).1 ∧
    (assignPort (assignPort s n p1 t1).2.1 n p2 t2).2.1 = (assignPort s n p1 t1).2.1 ∧
    (assignPort (assignPort s n p1 t1).2.1 n p2 t2).2.2 = [] := by
  intro s n p1 t1 p2 t2
  cases h : lookupA s.assigned_ports n with
  | some e =>
    simp [assignPort, h]
  | none =>
    have h2 : lookupA (s.assigned_ports ++ [(n, ⟨s.current_port, p1, t1⟩)]) n
        = some ⟨s.current_port, p1, t1⟩ := lookupA_append_self _ _ _ h
    simp only [assignPort, h, h2]
    simp

/-- C9: releasing a port removes the assignment and reports whether one was
present; base_port, next_port and every other assignment are unchanged. -/
theorem release_port_frame : ∀ (s : PMState) (n : String),
    ((releasePort s n).1 = true ↔ (lookupA s.assigned_ports n).isSome = true) ∧
    lookupA ((releasePort s n).2.1).assigned_ports n = none ∧
    ((releasePort s n).2.1).base_port = s.base_port ∧
    ((releasePort s n).2.1).current_port = s.current_port ∧
    (∀ k, k ≠ n → lookupA ((releasePort s n).2.1).assigned_ports k = lookupA s.assigned_ports k) := by
  intro s n
  cases hs : (lookupA s.assigned_ports n).isSome
  · have hnone : lookupA s.assigned_ports n = none := by
      cases ho : lookupA s.assigned_ports n
      · rfl
      · rw [ho] at hs; simp at hs
    simp only [releasePort, hs, Bool.false_eq_true, if_false]
    exact ⟨by simp, hnone, by simp, by simp, fun _ _ => by simp⟩
  · simp only [releasePort, hs, if_true]
    exact ⟨by simp, lookupA_filter_self _ _, by simp, by simp,
      fun k hk => lookupA_filter_other _ _ _ hk⟩

theorem release_port_frame_witness :
    (releasePort pmDemo "api").1 = true ∧
    lookupA ((releasePort pmDemo "api").2.1).assigned_ports "api" = none ∧
    ((releasePort pmDemo "api").2.1).current_port = pmDemo.current_port ∧
    lookupA ((releasePort pmDemo "api").2.1).assigned_ports "db" = lookupA pmDemo.assigned_ports "db" := by
  have h := release_port_frame pmDemo "api"
  exact ⟨h.1.mpr (by decide), h.2.1, h.2.2.2.1, h.2.2.2.2 "db" (by decide)⟩

/-- C8 counterexample: loading a stale file saved under base 4000 into a
manager with base 5000 is a reachable state (the clamp raises the cursor to
5000) in which the surviving assignment at port 4000 is below base_port, so
the claimed invariant fails. -/
theorem pm_invariant_counterexample :
    PMReach staleLoaded ∧
    staleLoaded.base_port = 5000 ∧
    staleLoaded.current_port = 5000 ∧
    lookupA staleLoaded.assigned_ports "svc" = some ⟨4000, "db", "t0"⟩ ∧
    ¬ PMInv staleLoaded := by
  refine ⟨PMReach.load 5000 (some staleFile), by decide, by decide, by decide, ?_⟩
  intro h
  have hm : ("svc", (⟨4000, "db", "t0"⟩ : PMEntry)) ∈ staleLoaded.assigned_ports := by decide
  have hle := (h.2 _ hm).2
  norm_num [staleLoaded, loadAssignments, staleFile] at hle

/-- C8 amended: next_port is at least base_port in every reachable state;
and when the loaded file already respects the invariant relative to the
current base_port (as any file saved by a session with the same base does),
the full invariant holds in every state reachable from that load. -/
theorem pm_invariant_amended :
    (∀ s, PMReach s → s.base_port ≤ s.current_port) ∧
    (∀ (base : Int) (file : Option PMFileData) (s : PMState),
      GoodFile base file → PMReachFrom (loadAssignments base file) s → PMInv s) := by
  constructor
  · intro s h
    induction h with
    | load base file =>
      cases file with
      | none => simp [loadAssignments]
      | some d =>
        simp only [loadAssignments]
        split <;> omega
    | assign s' n p t _ ih =>
      cases hl : lookupA s'.assigned_ports n with
      | some e => simpa [assignPort, hl] using ih
      | none =>
        simp only [assignPort, hl]
        omega
    | release s' n _ ih =>
      cases hs : (lookupA s'.assigned_ports n).isSome with
      | false => simpa [releasePort, hs] using ih
      | true => simpa [releasePort, hs] using ih
    | reset s' _ ih => simp [resetAssignments]
  · intro base file s hgood hreach
    induction hreach with
    | refl =>
      cases file with
      | none => exact ⟨le_refl _, by simp [loadAssignments]⟩
      | some d =>
        refine ⟨?_, ?_⟩
        · simp only [loadAssignments]
          split <;> omega
        · intro kv hmem
          simp only [loadAssignments] at hmem ⊢
          have hg := hgood kv hmem
          constructor
          · split <;> omega
          · exact hg.1
    | assign s' n p t _ ih =>
      cases hl : lookupA s'.assigned_ports n with
      | some e => simpa [assignPort, hl] using ih
      | none =>
        obtain ⟨ih1, ih2⟩ := ih
        simp only [assignPort, hl]
        refine ⟨by simp; omega, ?_⟩
        intro kv hmem
        simp only at hmem
        rcases List.mem_append.mp hmem with hm | hm
        · have := ih2 kv hm
          constructor <;> simp <;> omega
        · simp only [List.mem_singleton] at hm
          subst hm
          constructor <;> simp <;> omega
    | release s' n _ ih =>
      cases hs : (lookupA s'.assigned_ports n).isSome with
      | false => simpa [releasePort, hs] using ih
      | true =>
        obtain ⟨ih1, ih2⟩ := ih
        simp only [releasePort, hs, if_true]
        exact ⟨ih1, fun kv hmem => ih2 kv (List.mem_of_mem_filter hmem)⟩
    | reset s' _ ih =>
      exact ⟨le_refl _, by simp [resetAssignments]⟩

theorem pm_invariant_amended_witness :
    staleLoaded.base_port ≤ staleLoaded.current_port ∧
    PMInv (assignPort (loadAssignments 4000 none) "api" "http" "t1").2.1 :=
  ⟨pm_invariant_amended.1 staleLoaded (PMReach.load 5000 (some staleFile)),
    pm_invariant_amended.2 4000 none _ trivial
      (PMReachFrom.assign _ "api" "http" "t1" PMReachFrom.refl)⟩

/-- C7: cleanup completes without raising for every world and session state;
in particular, when no runtime was ever detected the AttributeError from
self.runtime.name is swallowed and no command is issued. -/
theorem cleanup_total : ∀ (w : OrchWorld) (s : OrchState),
    exceptOk (cleanup w s) = true ∧
    (s.runtime = none → cleanup w s = .ok []) := by
  intro w s
  constructor
  · rcases h : cleanupTry w s with a | ⟨e, acts⟩ <;> simp [cleanup, exceptOk, h]
  · intro hnone
    simp only [cleanup, cleanupTry, hnone]

theorem cleanup_total_witness :
    cleanup (healthyWorld allFree) orchInit = .ok [] ∧
    exceptOk (cleanup (healthyWorld allFree) partialSession) = true :=
  ⟨(cleanup_total (healthyWorld allFree) orchInit).2 rfl,
    (cleanup_total (healthyWorld allFree) partialSession).1⟩

/-- C5 evidence: for an out-of-range port number the probe raises
OverflowError (for every oracle and host), because socket.bind rejects the
port during argument conversion and the except clause catches only
socket.error/OSError — it does not map this failure to False. -/
theorem is_port_available_overflow : ∀ (free : String → Int → Bool) (host : String),
    isPortAvailable free 65536 host = .error (.overflowError "bind(): port must be 0-65535.") ∧
    isPortAvailable free (-1) host = .error (.overflowError "bind(): port must be 0-65535.") := by
  intro free host
  exact ⟨rfl, rfl⟩

/-- C6: check_sequential_port_block validates its inputs before probing any
port: count below 1 gives the count message, a range past 65535 gives the
range message; both return available=false with the requested range, no
busy ports, and an empty probe list. -/
theorem check_block_validation : ∀ (free : String → Int → Bool) (w : SysWorld) (host : String) (base count : Int),
    (count < 1 →
      checkSequentialPortBlock free w base count host =
        .ok (⟨false, (base, base + count - 1), [], some "Count must be at least 1"⟩, [])) ∧
    (1 ≤ count → 65535 < base + count - 1 →
      checkSequentialPortBlock free w base count host =
        .ok (⟨false, (base, base + count - 1), [],
          some (String.mk (strL "Port range " ++ numChars base ++ strL "-" ++ numChars (base + count - 1) ++ strL " exceeds maximum port number 65535"))⟩, [])) := by
  intro free w host base count
  constructor
  · intro h
    unfold checkSequentialPortBlock
    rw [if_pos h]
  · intro h1 h2
    unfold checkSequentialPortBlock
    rw [if_neg (by omega)]
    simp only []
    rw [if_pos (by omega)]

theorem check_block_validation_witness :
    checkSequentialPortBlock allFree sysAllFail 9000 0 "0.0.0.0" =
      .ok (⟨false, (9000, 8999), [], some "Count must be at least 1"⟩, []) ∧
    checkSequentialPortBlock allFree sysAllFail 65534 4 "0.0.0.0" =
      .ok (⟨false, (65534, 65537), [],
        some "Port range 65534-65537 exceeds maximum port number 65535"⟩, []) := by
  constructor
  · exact (check_block_validation allFree sysAllFail "0.0.0.0" 9000 0).1 (by norm_num)
  · exact (check_block_validation allFree sysAllFail "0.0.0.0" 65534 4).2 (by norm_num) (by norm_num)

theorem getProcessUsingPort_isSome (w : SysWorld) (p : Int) :
    (getProcessUsingPort w p).isSome = true := by
  unfold getProcessUsingPort
  split <;> rfl

theorem isPortAvailable_in_range (free : String → Int → Bool) (host : String) (p : Int)
    (h0 : 0 ≤ p) (h1 : p ≤ 65535) :
    isPortAvailable free p host = .ok (free host p) := by
  have hA : (p < 0 || p > 65535) = false := by
    simp only [Bool.or_eq_false_iff, decide_eq_false_iff_not]
    omega
  cases hf : free host p <;> simp [isPortAvailable, sockBind, hA, hf]

theorem isPortAvailable_ok_inv (free : String → Int → Bool) (host : String) (p : Int) (b : Bool)
    (h : isPortAvailable free p host = .ok b) : 0 ≤ p ∧ p ≤ 65535 ∧ b = free host p := by
  by_cases hin : 0 ≤ p ∧ p ≤ 65535
  · rw [isPortAvailable_in_range free host p hin.1 hin.2] at h
    injection h with h
    exact ⟨hin.1, hin.2, h.symm⟩
  · exfalso
    have hA : (p < 0 || p > 65535) = true := by
      simp only [Bool.or_eq_true, decide_eq_true_eq]
      omega
    simp [isPortAvailable, sockBind, hA] at h

theorem exceptBind_ok {ε : Type u} {α β : Type v} (a : α) (f : α → Except ε β) :
    ((Except.ok a : Except ε α) >>= f) = f a := rfl

theorem exceptBind_error {ε : Type u} {α β : Type v} (e : ε) (f : α → Except ε β) :
    ((Except.error e : Except ε α) >>= f) = .error e := rfl

theorem scanBusy_spec (free : String → Int → Bool) (w : SysWorld) (host : String) :
    ∀ (n : Nat) (port : Int) (busy : List PortInfo) (probed : List Int),
      scanBusy free w host port n = .ok (busy, probed) →
      (∀ bp ∈ busy, port ≤ bp.port ∧ bp.port < port + (n : Int) ∧ bp.available = false ∧
        bp.process_info = getProcessUsingPort w bp.port) ∧
      List.Pairwise (fun a b : PortInfo => a.port < b.port) busy := by
  intro n
  induction n with
  | zero =>
    intro port busy probed h
    simp only [scanBusy] at h
    injection h with h
    injection h with hb hp
    subst hb
    exact ⟨by simp, by simp⟩
  | succ m ih =>
    intro port busy probed h
    simp only [scanBusy] at h
    cases ha : isPortAvailable free port host with
    | error e =>
      rw [ha, exceptBind_error] at h
      simp at h
    | ok a =>
      rw [ha, exceptBind_ok] at h
      cases hr : scanBusy free w host (port + 1) m with
      | error e =>
        rw [hr, exceptBind_error] at h
        simp at h
      | ok pr =>
        obtain ⟨rest, probed'⟩ := pr
        rw [hr, exceptBind_ok] at h
        obtain ⟨ihmem, ihpw⟩ := ih (port + 1) rest probed' hr
        cases a with
        | true =>
          simp only [if_true] at h
          simp only [Except.ok.injEq, Prod.mk.injEq] at h
          obtain ⟨hb, hp⟩ := h
          subst hb
          constructor
          · intro bp hbp
            obtain ⟨hm1, hm2, hm3, hm4⟩ := ihmem bp hbp
            refine ⟨by omega, by push_cast at hm2 ⊢; omega, hm3, hm4⟩
          · exact ihpw
        | false =>
          simp only [Bool.false_eq_true, if_false] at h
          simp only [Except.ok.injEq, Prod.mk.injEq] at h
          obtain ⟨hb, hp⟩ := h
          subst hb
          constructor
          · intro bp hbp
            rcases List.mem_cons.mp hbp with hm | hm
            · subst hm
              refine ⟨le_refl _, by push_cast; omega, rfl, rfl⟩
            · obtain ⟨hm1, hm2, hm3, hm4⟩ := ihmem bp hm
              refine ⟨by omega, by push_cast at hm2 ⊢; omega, hm3, hm4⟩
          · refine List.pairwise_cons.mpr ⟨?_, ihpw⟩
            intro bp hbp
            have := (ihmem bp hbp).1
            show port < bp.port
            omega

/-- C10: for a validated request, the busy-port list is strictly increasing,
stays inside the requested range, records available=false with a non-None
process string for every entry, the result is available exactly when no port
was busy, and process attribution is total (never None, never raises). -/
theorem check_block_busy_shape : ∀ (free : String → Int → Bool) (w : SysWorld) (host : String)
    (base count : Int) (r : PortBlockCheckResult) (probed : List Int),
    1 ≤ count → base + count - 1 ≤ 65535 →
    checkSequentialPortBlock free w base count host = .ok (r, probed) →
    List.Pairwise (fun a b : PortInfo => a.port < b.port) r.busy_ports ∧
    (∀ bp ∈ r.busy_ports, base ≤ bp.port ∧ bp.port ≤ base + count - 1 ∧ bp.available = false ∧
      bp.process_info.isSome = true) ∧
    (r.available = true ↔ r.busy_ports = []) ∧
    (∀ p : Int, (getProcessUsingPort w p).isSome = true) := by
  intro free w host base count r probed h1 h2 hok
  simp only [checkSequentialPortBlock] at hok
  rw [if_neg (by omega : ¬ count < 1)] at hok
  rw [if_neg (by omega : ¬ base + count - 1 > 65535)] at hok
  cases hsb : scanBusy free w host base count.toNat with
  | error e =>
    rw [hsb, exceptBind_error] at hok
    simp at hok
  | ok pr =>
    obtain ⟨busy, prb⟩ := pr
    rw [hsb, exceptBind_ok] at hok
    obtain ⟨hmem, hpw⟩ := scanBusy_spec free w host count.toNat base busy prb hsb
    have hcast : ((count.toNat : Int)) = count := Int.toNat_of_nonneg (by omega)
    have hbound : ∀ bp ∈ busy, base ≤ bp.port ∧ bp.port ≤ base + count - 1 ∧
        bp.available = false ∧ bp.process_info.isSome = true := by
      intro bp hbp
      obtain ⟨hm1, hm2, hm3, hm4⟩ := hmem bp hbp
      rw [hcast] at hm2
      exact ⟨hm1, by omega, hm3, by rw [hm4]; exact getProcessUsingPort_isSome w bp.port⟩
    cases hbe : (busy.length == 0)
    · rw [hbe] at hok
      simp only [Bool.false_eq_true, if_false] at hok
      cases hmsg : buildErrorMessage base (base + count - 1) count busy with
      | error e =>
        rw [hmsg, exceptBind_error] at hok
        simp at hok
      | ok m =>
        rw [hmsg, exceptBind_ok] at hok
        simp only [Except.ok.injEq, Prod.mk.injEq] at hok
        obtain ⟨hr, hp⟩ := hok
        subst hr
        have hbne : busy ≠ [] := by
          intro hnil
          rw [hnil] at hbe
          simp at hbe
        exact ⟨hpw, hbound, by simpa using hbne, fun p => getProcessUsingPort_isSome w p⟩
    · rw [hbe] at hok
      simp only [if_true] at hok
      simp only [Except.ok.injEq, Prod.mk.injEq] at hok
      obtain ⟨hr, hp⟩ := hok
      subst hr
      have hbnil : busy = [] := by
        cases busy with
        | nil => rfl
        | cons x t => simp at hbe
      exact ⟨hpw, hbound, by simp [hbnil], fun p => getProcessUsingPort_isSome w p⟩

theorem check_block_busy_shape_witness :
    List.Pairwise (fun a b : PortInfo => a.port < b.port)
      [(⟨8091, false, some "unknown process"⟩ : PortInfo)] ∧
    (∀ bp ∈ [(⟨8091, false, some "unknown process"⟩ : PortInfo)],
      (8090 : Int) ≤ bp.port ∧ bp.port ≤ 8090 + 2 - 1 ∧ bp.available = false ∧
      bp.process_info.isSome = true) ∧
    (∀ p : Int, (getProcessUsingPort sysAllFail p).isSome = true) := by
  have h := check_block_busy_shape busy8091 sysAllFail "0.0.0.0" 8090 2
    ⟨false, (8090, 8091), [⟨8091, false, some "unknown process"⟩],
      some "Ports 8090-8091: 8091 already in use (unknown process)"⟩
    [8090, 8091] (by norm_num) (by norm_num) (by decide)
  exact ⟨h.1, h.2.1, h.2.2.2⟩

theorem scanPorts_ok_true (free : String → Int → Bool) (host : String) :
    ∀ (n : Nat) (c : Int) (l : List Int), scanPorts free host c n = .ok (l, true) →
      l = seqInts c n ∧ windowFreeB free host c n = true := by
  intro n
  induction n with
  | zero =>
    intro c l h
    simp only [scanPorts] at h
    simp only [Except.ok.injEq, Prod.mk.injEq] at h
    exact ⟨h.1.symm, rfl⟩
  | succ m ih =>
    intro c l h
    simp only [scanPorts] at h
    cases ha : isPortAvailable free c host with
    | error e => rw [ha, exceptBind_error] at h; simp at h
    | ok a =>
      rw [ha, exceptBind_ok] at h
      cases a with
      | false =>
        simp only [Bool.false_eq_true, if_false] at h
        simp at h
      | true =>
        simp only [if_true] at h
        cases hr : scanPorts free host (c + 1) m with
        | error e => rw [hr, exceptBind_error] at h; simp at h
        | ok pr =>
          obtain ⟨ps, b⟩ := pr
          rw [hr, exceptBind_ok] at h
          simp only [Except.ok.injEq, Prod.mk.injEq] at h
          obtain ⟨hl, hb⟩ := h
          subst hb
          obtain ⟨hseq, hwin⟩ := ih (c + 1) ps hr
          obtain ⟨h0, h65, hfree⟩ := isPortAvailable_ok_inv free host c true ha
          refine ⟨by rw [← hl, hseq, seqInts], ?_⟩
          simp only [windowFreeB, hwin, Bool.and_true]
          simp [hfree.symm, h0, h65]
  
theorem scanPorts_ok_false (free : String → Int → Bool) (host : String) :
    ∀ (n : Nat) (c : Int) (l : List Int), scanPorts free host c n = .ok (l, false) →
      windowFreeB free host c n = false := by
  intro n
  induction n with
  | zero =>
    intro c l h
    simp only [scanPorts] at h
    simp at h
  | succ m ih =>
    intro c l h
    simp only [scanPorts] at h
    cases ha : isPortAvailable free c host with
    | error e => rw [ha, exceptBind_error] at h; simp at h
    | ok a =>
      rw [ha, exceptBind_ok] at h
      cases a with
      | false =>
        obtain ⟨h0, h65, hfree⟩ := isPortAvailable_ok_inv free host c false ha
        simp only [windowFreeB, ← hfree]
        simp
      | true =>
        simp only [if_true] at h
        cases hr : scanPorts free host (c + 1) m with
        | error e => rw [hr, exceptBind_error] at h; simp at h
        | ok pr =>
          obtain ⟨ps, b⟩ := pr
          rw [hr, exceptBind_ok] at h
          simp only [Except.ok.injEq, Prod.mk.injEq] at h
          obtain ⟨hl, hb⟩ := h
          subst hb
          simp only [windowFreeB, ih (c + 1) ps hr, Bool.and_false]

theorem findLoop_ok (free : String → Int → Bool) (host : String) (count : Int) (hc : 1 ≤ count) :
    ∀ (fuel : Nat) (cur : Int) (l : List Int),
      findLoop free host count fuel cur = .ok (some l) →
      ∃ p : Int, l = seqInts p count.toNat ∧ windowFreeB free host p count.toNat = true ∧
        cur ≤ p ∧ p < cur + (fuel : Int) ∧
        ∀ q : Int, cur ≤ q → q < p → windowFreeB free host q count.toNat = false := by
  intro fuel
  induction fuel with
  | zero =>
    intro cur l h
    simp only [findLoop] at h
    simp at h
  | succ g ih =>
    intro cur l h
    simp only [findLoop] at h
    cases hs : scanPorts free host cur count.toNat with
    | error e => rw [hs, exceptBind_error] at h; simp at h
    | ok pr =>
      obtain ⟨ports, allA⟩ := pr
      rw [hs, exceptBind_ok] at h
      cases allA with
      | true =>
        obtain ⟨hseq, hwin⟩ := scanPorts_ok_true free host count.toNat cur ports hs
        have hlen : ((ports.length : Int) == count) = true := by
          have : ports.length = count.toNat := by
            rw [hseq]
            clear * -
            induction count.toNat generalizing cur with
            | zero => simp [seqInts]
            | succ m ihn => simp [seqInts, ihn]
          simp only [this, beq_iff_eq]
          exact Int.toNat_of_nonneg (by omega)
        rw [hlen] at h
        simp only [Bool.true_and, if_true] at h
        simp only [Except.ok.injEq, Option.some.injEq] at h
        refine ⟨cur, by rw [← h, hseq], hwin, le_refl _, by push_cast; omega, ?_⟩
        intro q hq1 hq2
        omega
      | false =>
        simp only [Bool.false_and, Bool.false_eq_true, if_false] at h
        have hwf := scanPorts_ok_false free host count.toNat cur ports hs
        by_cases hb : cur + 1 + count - 1 > 65535
        · rw [if_pos hb] at h
          simp at h
        · rw [if_neg hb] at h
          obtain ⟨p, hp1, hp2, hp3, hp4, hp5⟩ := ih (cur + 1) l h
          refine ⟨p, hp1, hp2, by omega, by push_cast at hp4 ⊢; omega, ?_⟩
          intro q hq1 hq2
          by_cases hqc : q = cur
          · rw [hqc]; exact hwf
          · exact hp5 q (by omega) hq2

theorem windowFreeB_mem (free : String → Int → Bool) (host : String) :
    ∀ (n : Nat) (p x : Int), windowFreeB free host p n = true → x ∈ seqInts p n →
      free host x = true := by
  intro n
  induction n with
  | zero => intro p x _ hx; simp [seqInts] at hx
  | succ m ih =>
    intro p x hw hx
    simp only [windowFreeB, Bool.and_eq_true] at hw
    simp only [seqInts, List.mem_cons] at hx
    rcases hx with hx | hx
    · rw [hx]; exact hw.1.2
    · exact ih (p + 1) x hw.2 hx

/-- C3: whenever find_sequential_ports returns a list, that list is exactly
the window p, p+1, ..., p+count-1 for the smallest candidate p at or above
base (within the 1000-attempt budget) whose whole window probes available;
the result contains no port that probed busy, and moves strictly above base
whenever the window at base has a busy port. -/
theorem find_sequential_spec : ∀ (free : String → Int → Bool) (host : String) (base count : Int)
    (l : List Int) (p : Int),
    findSequentialPorts free base count host = .ok l →
    l.head? = some p →
    1 ≤ count ∧
    l = seqInts p count.toNat ∧
    windowFreeB free host p count.toNat = true ∧
    base ≤ p ∧ p ≤ base + 999 ∧
    (∀ q : Int, base ≤ q → q < p → windowFreeB free host q count.toNat = false) ∧
    (∀ x ∈ l, free host x = true) ∧
    (windowFreeB free host base count.toNat = false → base < p) := by
  intro free host base count l p hok hhead
  unfold findSequentialPorts at hok
  by_cases hc : count < 1
  · rw [if_pos hc] at hok; simp at hok
  · rw [if_neg hc] at hok
    have hc1 : 1 ≤ count := by omega
    cases hfl : findLoop free host count 1000 base with
    | error e => rw [hfl] at hok; simp at hok
    | ok o =>
      cases o with
      | none => rw [hfl] at hok; simp at hok
      | some ports =>
        rw [hfl] at hok
        simp only [Except.ok.injEq] at hok
        obtain ⟨p', h1, h2, h3, h4, h5⟩ := findLoop_ok free host count hc1 1000 base ports hfl
        have hl : l = seqInts p' count.toNat := by rw [← hok]; exact h1
        have hn : count.toNat = (count.toNat - 1) + 1 := by omega
        have hpp : p = p' := by
          rw [hl, hn] at hhead
          simp only [seqInts, List.head?_cons, Option.some.injEq] at hhead
          exact hhead.symm
        subst hpp
        refine ⟨hc1, hl, h2, h3, by push_cast at h4; omega, h5, ?_, ?_⟩
        · intro x hx
          rw [hl] at hx
          exact windowFreeB_mem free host count.toNat p x h2 hx
        · intro hbase
          rcases lt_or_eq_of_le h3 with hlt | heq
          · exact hlt
          · exfalso
            rw [heq, h2] at hbase
            cases hbase

theorem find_sequential_spec_witness :
    [(8091 : Int), 8092] = seqInts 8091 (2 : Int).toNat ∧
    windowFreeB busy8090 "0.0.0.0" 8091 (2 : Int).toNat = true ∧
    (8090 : Int) ≤ 8091 ∧ (8091 : Int) ≤ 8090 + 999 ∧
    (∀ q : Int, 8090 ≤ q → q < 8091 → windowFreeB busy8090 "0.0.0.0" q (2 : Int).toNat = false) ∧
    (∀ x ∈ [(8091 : Int), 8092], busy8090 "0.0.0.0" x = true) ∧
    (windowFreeB busy8090 "0.0.0.0" 8090 (2 : Int).toNat = false → (8090 : Int) < 8091) := by
  have h := find_sequential_spec busy8090 "0.0.0.0" 8090 2 [8091, 8092] 8091 (by decide) rfl
  exact ⟨h.2.1, h.2.2.1, h.2.2.2.1, h.2.2.2.2.1, h.2.2.2.2.2.1, h.2.2.2.2.2.2.1,
    h.2.2.2.2.2.2.2⟩

theorem containsSub_of_decomp (sub l pre suf : List Char) (h : l = pre ++ sub ++ suf) :
    containsSub sub l = true := by
  rw [h]; exact containsSub_infix sub pre suf

theorem map_rebuildDesc_id : ∀ l : List (List Char), l.map rebuildDesc = l := by
  intro l
  induction l with
  | nil => rfl
  | cons x t ih => simp [rebuildDesc_id, ih]

theorem descChars_decomp (p : Int) (info : Option String) :
    ∃ rest, descChars p info = (numChars p ++ strL " already in use") ++ rest := by
  refine ⟨(if pyTruthy info then strL " (" ++ (info.getD "").toList ++ strL ")" else []), ?_⟩
  rw [descChars_eq]
  unfold useTail
  have hsp : strL " already in use" = [' '] ++ strL "already in use" := rfl
  rw [hsp]
  simp [List.append_assoc]

theorem startsWithL_self_append (pre rest : List Char) :
    startsWithL pre (pre ++ rest) = true := by
  unfold startsWithL
  rw [List.isPrefixOf_iff_prefix]
  exact List.prefix_append _ _

/-- C2 amended: whenever the check fails with busy ports, for count at least
2 the message starts with "Ports base-end: " and names every busy port p
with the text "p already in use"; for count = 1 the message is exactly
"Port base: " followed by "already in use" and the parenthesised process
description (the port number is named once, before a colon, so the text
"base already in use" is not part of the format). -/
theorem check_block_error_message : ∀ (free : String → Int → Bool) (w : SysWorld) (host : String)
    (base count : Int) (r : PortBlockCheckResult) (probed : List Int),
    checkSequentialPortBlock free w base count host = .ok (r, probed) →
    r.busy_ports ≠ [] →
    r.available = false ∧
    ∃ m : String, r.error_message = some m ∧
      (2 ≤ count →
        startsWithL (strL "Ports " ++ numChars base ++ strL "-" ++ numChars (base + count - 1) ++ strL ": ") m.toList = true ∧
        ∀ bp ∈ r.busy_ports, containsSub (numChars bp.port ++ strL " already in use") m.toList = true) ∧
      (count = 1 →
        containsSub (numChars base ++ strL " ") (useTail (getProcessUsingPort w base)) = false →
        m = String.mk (strL "Port " ++ numChars base ++ strL ": " ++ useTail (getProcessUsingPort w base))) := by
  intro free w host base count r probed hok hne
  simp only [checkSequentialPortBlock] at hok
  by_cases hc0 : count < 1
  · rw [if_pos hc0] at hok
    simp only [Except.ok.injEq, Prod.mk.injEq] at hok
    rw [← hok.1] at hne
    simp at hne
  rw [if_neg hc0] at hok
  by_cases hc65 : base + count - 1 > 65535
  · rw [if_pos hc65] at hok
    simp only [Except.ok.injEq, Prod.mk.injEq] at hok
    rw [← hok.1] at hne
    simp at hne
  rw [if_neg hc65] at hok
  cases hsb : scanBusy free w host base count.toNat with
  | error e => rw [hsb, exceptBind_error] at hok; simp at hok
  | ok pr =>
    obtain ⟨busy, prb⟩ := pr
    rw [hsb, exceptBind_ok] at hok
    cases hbe : (busy.length == 0)
    · rw [hbe] at hok
      simp only [Bool.false_eq_true, if_false] at hok
      cases hmsg : buildErrorMessage base (base + count - 1) count busy with
      | error e => rw [hmsg, exceptBind_error] at hok; simp at hok
      | ok m =>
        rw [hmsg, exceptBind_ok] at hok
        simp only [Except.ok.injEq, Prod.mk.injEq] at hok
        obtain ⟨hr, hprb⟩ := hok
        subst hr
        refine ⟨rfl, m, rfl, ?_, ?_⟩
        · -- count at least 2
          intro hc2
          have hc1 : (count == 1) = false := by
            simp only [beq_eq_false_iff_ne]
            omega
          unfold buildErrorMessage at hmsg
          rw [hc1] at hmsg
          simp only [Bool.false_eq_true, if_false, Except.ok.injEq] at hmsg
          rw [map_rebuildDesc_id] at hmsg
          constructor
          · rw [← hmsg]
            exact startsWithL_self_append
              (strL "Ports " ++ numChars base ++ strL "-" ++ numChars (base + count - 1) ++ strL ": ")
              (joinWith (strL ", ") (busy.map fun b => descChars b.port b.process_info))
          · intro bp hbp
            have hdm : descChars bp.port bp.process_info ∈
                busy.map (fun b => descChars b.port b.process_info) :=
              List.mem_map_of_mem _ hbp
            obtain ⟨a, b, hab⟩ := joinWith_mem (strL ", ") _ _ hdm
            obtain ⟨rest, hrest⟩ := descChars_decomp bp.port bp.process_info
            rw [hrest] at hab
            apply containsSub_of_decomp _ _
              (strL "Ports " ++ numChars base ++ strL "-" ++ numChars (base + count - 1) ++ strL ": " ++ a)
              (rest ++ b)
            rw [← hmsg]
            show strL "Ports " ++ numChars base ++ strL "-" ++ numChars (base + count - 1) ++ strL ": " ++
              joinWith (strL ", ") (busy.map fun b => descChars b.port b.process_info) = _
            rw [hab]
            simp [List.append_assoc]
        · -- count = 1
          intro hc1 hnc
          subst hc1
          have htn : (1 : Int).toNat = 1 := rfl
          rw [htn] at hsb
          -- analyse the single-port scan
          simp only [scanBusy] at hsb
          cases ha : isPortAvailable free base host with
          | error e => rw [ha, exceptBind_error] at hsb; simp at hsb
          | ok a =>
            rw [ha, exceptBind_ok, exceptBind_ok] at hsb
            cases a with
            | true =>
              simp only [if_true] at hsb
              simp only [Except.ok.injEq, Prod.mk.injEq] at hsb
              rw [← hsb.1] at hne
              simp at hne
            | false =>
              simp only [Bool.false_eq_true, if_false] at hsb
              simp only [Except.ok.injEq, Prod.mk.injEq] at hsb
              obtain ⟨hbusy, _⟩ := hsb
              subst hbusy
              unfold buildErrorMessage at hmsg
              simp only [List.map_cons, List.map_nil, beq_self_eq_true, if_true,
                List.get?] at hmsg
              rw [descChars_eq] at hmsg
              have hone : numChars base ++ [' '] = numChars base ++ strL " " := rfl
              rw [hone] at hmsg
              rw [pySplit_cons_self (numChars base ++ strL " ") _ (by simp [strL]),
                pySplit_not_contains _ _ hnc] at hmsg
              simp only [List.get?, Except.ok.injEq] at hmsg
              exact hmsg.symm
    · rw [hbe] at hok
      simp only [if_true] at hok
      simp only [Except.ok.injEq, Prod.mk.injEq] at hok
      obtain ⟨hr, _⟩ := hok
      subst hr
      exfalso
      apply hne
      show busy = []
      cases busy with
      | nil => rfl
      | cons x t => simp at hbe

/-- C2 counterexample: for a one-port check of busy port 8090 the message is
"Port 8090: already in use (unknown process)" — it uses the singular
"Port 8090" prefix but does not name the busy port with the text
"8090 already in use" that the claim requires for every busy port. -/
theorem check_block_message_counterexample :
    checkSequentialPortBlock busy8090 sysAllFail 8090 1 "0.0.0.0" =
      .ok (⟨false, (8090, 8090), [⟨8090, false, some "unknown process"⟩],
        some "Port 8090: already in use (unknown process)"⟩, [8090]) ∧
    containsSub (strL "8090 already in use")
      (strL "Port 8090: already in use (unknown process)") = false :=
  ⟨by decide, by decide⟩

theorem check_block_error_message_witness :
    startsWithL (strL "Ports " ++ numChars 8090 ++ strL "-" ++ numChars (8090 + 3 - 1) ++ strL ": ")
      (strL "Ports 8090-8092: 8091 already in use (unknown process)") = true ∧
    containsSub (numChars 8091 ++ strL " already in use")
      (strL "Ports 8090-8092: 8091 already in use (unknown process)") = true ∧
    "Port 8090: already in use (unknown process)" =
      String.mk (strL "Port " ++ numChars 8090 ++ strL ": " ++ useTail (getProcessUsingPort sysAllFail 8090)) := by
  have h3 := check_block_error_message busy8091 sysAllFail "0.0.0.0" 8090 3
    ⟨false, (8090, 8092), [⟨8091, false, some "unknown process"⟩],
      some "Ports 8090-8092: 8091 already in use (unknown process)"⟩
    [8090, 8091, 8092] (by decide) (by simp)
  obtain ⟨_, m, hm, h2, _⟩ := h3
  have hm' : m = "Ports 8090-8092: 8091 already in use (unknown process)" := by
    simp only [Option.some.injEq] at hm
    exact hm.symm
  obtain ⟨hsw, hcont⟩ := h2 (by norm_num)
  rw [hm'] at hsw hcont
  have h1 := check_block_error_message busy8090 sysAllFail "0.0.0.0" 8090 1
    ⟨false, (8090, 8090), [⟨8090, false, some "unknown process"⟩],
      some "Port 8090: already in use (unknown process)"⟩
    [8090] (by decide) (by simp)
  obtain ⟨_, m1, hm1, _, h1c⟩ := h1
  have hm1' : m1 = "Port 8090: already in use (unknown process)" := by
    simp only [Option.some.injEq] at hm1
    exact hm1.symm
  have hexact := h1c rfl (by decide)
  rw [hm1'] at hexact
  exact ⟨hsw, hcont ⟨8091, false, some "unknown process"⟩ (by simp), hexact⟩

theorem buildErrorMessage_contains (base endPort count : Int) (busy : List PortInfo) (m : String)
    (hc : (count == 1) = false) (hne : busy ≠ [])
    (hok : buildErrorMessage base endPort count busy = .ok m) :
    containsSub (strL "already in use") m.toList = true := by
  unfold buildErrorMessage at hok
  rw [hc] at hok
  simp only [Bool.false_eq_true, if_false, Except.ok.injEq] at hok
  rw [map_rebuildDesc_id] at hok
  cases busy with
  | nil => exact absurd rfl hne
  | cons bp rest =>
    have hdm : descChars bp.port bp.process_info ∈
        ((bp :: rest).map (fun b => descChars b.port b.process_info)) := by simp
    obtain ⟨a, b, hab⟩ := joinWith_mem (strL ", ") _ _ hdm
    obtain ⟨r0, hr0⟩ := descChars_decomp bp.port bp.process_info
    apply containsSub_of_decomp (strL "already in use") _
      (strL "Ports " ++ numChars base ++ strL "-" ++ numChars endPort ++ strL ": " ++ a ++
        (numChars bp.port ++ [' '])) (r0 ++ b)
    rw [← hok, hab, hr0]
    have hsp : strL " already in use" = [' '] ++ strL "already in use" := rfl
    rw [hsp]
    simp [List.append_assoc]

theorem check_8090_free (w : OrchWorld) (hfree : allFree3 w = true) :
    checkSequentialPortBlock w.free w.sys 8090 3 "0.0.0.0" =
      .ok (⟨true, (8090, 8092), [], none⟩, [8090, 8091, 8092]) := by
  simp only [allFree3, Bool.and_eq_true] at hfree
  obtain ⟨⟨h0, h1⟩, h2⟩ := hfree
  have i0 : isPortAvailable w.free 8090 "0.0.0.0" = .ok true := by
    rw [isPortAvailable_in_range _ _ _ (by norm_num) (by norm_num), h0]
  have i1 : isPortAvailable w.free 8091 "0.0.0.0" = .ok true := by
    rw [isPortAvailable_in_range _ _ _ (by norm_num) (by norm_num), h1]
  have i2 : isPortAvailable w.free 8092 "0.0.0.0" = .ok true := by
    rw [isPortAvailable_in_range _ _ _ (by norm_num) (by norm_num), h2]
  have hs : scanBusy w.free w.sys "0.0.0.0" 8090 3 = .ok ([], [8090, 8091, 8092]) := by
    simp only [scanBusy, show (8090 : Int) + 1 = 8091 from rfl,
      show (8091 : Int) + 1 = 8092 from rfl, i0, i1, i2, exceptBind_ok, if_true]
  simp only [checkSequentialPortBlock]
  rw [if_neg (by norm_num), if_neg (by norm_num)]
  rw [show ((3 : Int).toNat) = 3 from rfl, hs, exceptBind_ok]
  simp

theorem scanBusy_total (free : String → Int → Bool) (w : SysWorld) (host : String) :
    ∀ (n : Nat) (c : Int), 0 ≤ c → c + (n : Int) ≤ 65536 →
      ∃ busy prb, scanBusy free w host c n = .ok (busy, prb) ∧
        (busy = [] ↔ windowFreeB free host c n = true) := by
  intro n
  induction n with
  | zero =>
    intro c _ _
    exact ⟨[], [], rfl, by simp [windowFreeB]⟩
  | succ m ih =>
    intro c h0 h65
    have h65c : c ≤ 65535 := by push_cast at h65; omega
    obtain ⟨rest, prb', hr, hiff⟩ := ih (c + 1) (by omega) (by push_cast at h65 ⊢; omega)
    have hi : isPortAvailable free c host = .ok (free host c) :=
      isPortAvailable_in_range _ _ _ h0 h65c
    have hA : (decide (0 ≤ c) && decide (c ≤ 65535) && free host c) = free host c := by
      simp [h0, h65c]
    cases hf : free host c with
    | true =>
      refine ⟨rest, c :: prb', ?_, ?_⟩
      · simp only [scanBusy, hi, hf, exceptBind_ok, hr, if_true]
      · rw [hiff]
        show windowFreeB free host (c + 1) m = true ↔
          ((decide (0 ≤ c) && decide (c ≤ 65535) && free host c) &&
            windowFreeB free host (c + 1) m) = true
        rw [hA, hf, Bool.true_and]
    | false =>
      refine ⟨⟨c, false, getProcessUsingPort w c⟩ :: rest, c :: prb', ?_, ?_⟩
      · simp only [scanBusy, hi, hf, exceptBind_ok, hr, Bool.false_eq_true, if_false]
      · simp only [windowFreeB, hA, hf, Bool.false_and]
        simp

theorem check_8090_busy (w : OrchWorld) (hfree : allFree3 w = false) :
    ∃ (busy : List PortInfo) (m : String) (prb : List Int),
      busy ≠ [] ∧
      checkSequentialPortBlock w.free w.sys 8090 3 "0.0.0.0" =
        .ok (⟨false, (8090, 8092), busy, some m⟩, prb) ∧
      containsSub (strL "already in use") m.toList = true := by
  obtain ⟨busy, prb, hs, hiff⟩ :=
    scanBusy_total w.free w.sys "0.0.0.0" 3 8090 (by norm_num) (by norm_num)
  have hwf : windowFreeB w.free "0.0.0.0" 8090 3 = allFree3 w := by
    simp only [windowFreeB, allFree3,
      show decide ((0 : Int) ≤ 8090) = true from by decide,
      show decide ((8090 : Int) ≤ 65535) = true from by decide,
      show decide ((0 : Int) ≤ 8091) = true from by decide,
      show decide ((8091 : Int) ≤ 65535) = true from by decide,
      show decide ((0 : Int) ≤ 8092) = true from by decide,
      show decide ((8092 : Int) ≤ 65535) = true from by decide,
      show (8090 : Int) + 1 = 8091 from rfl, show (8091 : Int) + 1 = 8092 from rfl,
      Bool.true_and, Bool.and_true, Bool.and_assoc]
  have hne : busy ≠ [] := by
    intro h
    have := hiff.mp h
    rw [hwf, hfree] at this
    cases this
  have hmsg : ∃ m, buildErrorMessage 8090 8092 3 busy = .ok m := by
    unfold buildErrorMessage
    rw [show ((3 : Int) == 1) = false from rfl]
    simp
  obtain ⟨m, hm⟩ := hmsg
  refine ⟨busy, m, prb, hne, ?_, ?_⟩
  · simp only [checkSequentialPortBlock]
    rw [if_neg (by norm_num), if_neg (by norm_num)]
    rw [show ((3 : Int).toNat) = 3 from rfl, hs, exceptBind_ok]
    have hlen : (busy.length == 0) = false := by
      cases busy with
      | nil => exact absurd rfl hne
      | cons x t => simp
    rw [hlen]
    simp only [Bool.false_eq_true, if_false]
    rw [show ((8090 : Int) + 3 - 1) = 8092 from rfl] at *
    rw [hm, exceptBind_ok]
  · exact buildErrorMessage_contains 8090 8092 3 busy m (by decide) hne hm

theorem allocatePorts_free (w : OrchWorld) (s : OrchState) (hfree : allFree3 w = true) :
    allocatePorts w s = .ok ⟨s.runtime, s.containers, s.compose_file, s.project_name,
      portServices.zip [8090, 8091, 8092]⟩ := by
  unfold allocatePorts
  rw [check_8090_free w hfree]
  simp

theorem allocatePorts_busy (w : OrchWorld) (s : OrchState) (hfree : allFree3 w = false) :
    ∃ msg : String, allocatePorts w s = .error (.runtimeError msg) := by
  obtain ⟨busy, m, prb, hne, hchk, hcont⟩ := check_8090_busy w hfree
  unfold allocatePorts
  rw [hchk]
  simp only [Bool.false_eq_true, if_false, Option.getD_some]
  rw [show PyErr.str (.runtimeError m) = m from rfl]
  rw [hcont]
  simp

theorem checkContainersExist_runtime_only (w : OrchWorld) (rt : Runtime)
    (cs cs' : List String) (cf cf' pn pn' : String) (po po' : List (String × Int)) :
    checkContainersExist w ⟨some rt, cs, cf, pn, po⟩ =
      checkContainersExist w ⟨some rt, cs', cf', pn', po'⟩ := rfl

/-- C1 amended: on a second start_containers call with the required
containers already running and healthy, no destructive command is issued in
either case; under podman, when the pre-flight check on ports 8090-8092
passes, the call short-circuits to success without recreating anything, but
when any of those ports is held — as by the already-running containers
themselves — port allocation fails first and the call returns failure,
leaving the containers untouched. -/
theorem start_containers_reentry : ∀ (w : OrchWorld) (s : OrchState) (rt : Runtime),
    s.runtime = some rt →
    checkContainersExist w s = true →
    (allFree3 w = false → startContainers w s = .ok (false, s, [])) ∧
    (allFree3 w = true → rt.name = "podman" →
      startContainers w s = .ok (true,
        ⟨s.runtime, s.containers, s.compose_file, s.project_name,
          portServices.zip [8090, 8091, 8092]⟩, [])) := by
  intro w s rt hrt hexists
  constructor
  · intro hbusy
    obtain ⟨msg, halloc⟩ := allocatePorts_busy w s hbusy
    simp only [startContainers, hrt, exceptBind_ok, halloc]
  · intro hfree hname
    have halloc := allocatePorts_free w s hfree
    simp only [startContainers, hrt, exceptBind_ok, halloc, hname, beq_self_eq_true, if_true]
    unfold startPodmanContainers
    have hce : checkContainersExist w ⟨some rt, s.containers, s.compose_file, s.project_name,
        portServices.zip [8090, 8091, 8092]⟩ = true := by
      rw [checkContainersExist_runtime_only w rt s.containers s.containers s.compose_file
        s.compose_file s.project_name s.project_name (portServices.zip [8090, 8091, 8092]) s.ports]
      rw [← hrt]
      exact hexists
    rw [hce]
    simp [hrt]

/-- C1 counterexample: with podman detected, both containers listed by ps
and healthy, but port 8091 held (as the running test-postgres holds its own
published port), a second start_containers returns failure — it does not
short-circuit to the healthy state — although it issues no destructive
command. -/
theorem start_containers_reentry_counterexample :
    checkContainersExist (healthyWorld busy8091) podmanState = true ∧
    startContainers (healthyWorld busy8091) podmanState = .ok (false, podmanState, []) :=
  ⟨by decide, by decide⟩

theorem start_containers_reentry_witness :
    startContainers (healthyWorld allFree) podmanState =
      .ok (true, ⟨some podmanRt, [], "docker-compose.test.yml", "test-env",
        portServices.zip [8090, 8091, 8092]⟩, []) :=
  (start_containers_reentry (healthyWorld allFree) podmanState podmanRt rfl
    (by decide)).2 (by decide) rfl
